import Mathlib

/-!
Verification development for the EVEdat industry-profit analyzer
(src/main.py).  The core of the program is a recursive cost resolver:
given the static game catalog (an SQLite database), a market price
oracle and a handful of configuration switches, it computes for every
item a five-field cost vector
(cost, mining_hours, pi_hours, blueprint_cost, full_bp_price)
and ranks manufacturable items by profitability.

Shallow embedding conventions:
- Python floats are modelled as rationals; the database and the two
  remote oracles (price, daily volume) are modelled as a pure record
  of functions, because the program loads/queries them read-only and
  caches the answers for a whole run.
- The finitely many rows of the industryActivityProducts table that
  make has_blueprint true are modelled as a Finset (this finiteness is
  what makes the Python recursion terminate on cyclic data).
- The global mutable state of the script is made explicit: the
  lru_cache of _cost_to_build is threaded as a Cache value, and the
  global visited set is passed downward.  A Python exception
  (the only reachable one inside the resolver is the ZeroDivisionError
  in calculate_mining_time when an ore row has mineral yield 0) is
  modelled with Except; the error payload records the visited set and
  the cache at the moment the exception escapes, mirroring the global
  state the script would be left with.
-/

/-- The five-field cost vector returned by _cost_to_build
(cost, mining_hours, pi_hours, blueprint_cost, full_bp_price). -/
structure CostVector where
  cost : ℚ
  mining_hours : ℚ
  pi_hours : ℚ
  blueprint_cost : ℚ
  full_bp_price : ℚ
deriving DecidableEq, Repr

/-- The memoization cache of _cost_to_build (functools.lru_cache),
keyed by type id. -/
abbrev Cache : Type := Nat → Option CostVector

/-- The empty cache at interpreter start. -/
def emptyCache : Cache := fun _ => none

/-- Write one entry into the lru_cache. -/
def updateCache (c : Cache) (id : Nat) (v : CostVector) : Cache :=
  fun j => if j = id then some v else c j

/-- Global state carried by a propagating exception: the visited set
and the cache at the moment the exception escapes. -/
abbrev RunErr : Type := Finset Nat × Cache

/-- The static catalog (SQLite database) together with the two market
oracles, as the pure query interface the script consumes.
groupID and categoryID give the invTypes/invGroups classification
columns; oreFor is the single row returned by the get_ore_for_mineral
query (ore type id, mineral yield per ore unit, ore volume);
bpDomain is the set of product type ids for which the has_blueprint
count query is positive (finite, since the table is finite);
blueprintId is the row returned by get_blueprint_type_id;
materials is the list returned by get_materials;
outputQuantity records the per-run yield column of
industryActivityProducts, which is present in the dataset but never
queried by any function of src/main.py. -/
structure Catalog where
  price : Nat → ℚ
  volume : Nat → ℚ
  typeName : Nat → String
  groupID : Nat → Option Nat
  categoryID : Nat → Option Nat
  oreFor : Nat → Option (Nat × Nat × ℚ)
  bpDomain : Finset Nat
  blueprintId : Nat → Option Nat
  materials : Nat → List (Nat × Nat)
  outputQuantity : Nat → Nat

/-- The configuration constants of src/main.py that the claims range
over.  The remaining constants are fixed below. -/
structure Config where
  ENABLE_SELF_SUFFICIENT : Bool
  INCLUDE_BLUEPRINT_COST : Bool
  BLUEPRINT_RUNS : Int
  MIN_DAILY_VOLUME : ℚ
  UNITS_TO_COMPARE : ℚ

def MINERAL_GROUP_ID : Nat := 18

def ICE_PRODUCT_GROUP_ID : Nat := 423

def PI_CATEGORY_ID : Nat := 43

def REPROCESSING_EFFICIENCY : ℚ := 72 / 100

def STRIP_MINER_CYCLE_TIME : ℚ := 180

/-- is_mineral: groupID of the item is Mineral (18) or Ice Products
(423); False when the invTypes row is missing. -/
def is_mineral (cat : Catalog) (type_id : Nat) : Bool :=
  match cat.groupID type_id with
  | some g => g == MINERAL_GROUP_ID || g == ICE_PRODUCT_GROUP_ID
  | none => false

/-- is_pi_material: the category of the item group is Planetary
Commodities (43); False when the row is missing. -/
def is_pi_material (cat : Catalog) (type_id : Nat) : Bool :=
  match cat.categoryID type_id with
  | some c => c == PI_CATEGORY_ID
  | none => false

/-- calculate_mining_time: hours needed to mine ore covering
quantity_needed units of the mineral.  Returns ok 0.0 when no ore
reprocesses into the mineral.  When an ore row exists with mineral
yield 0, the Python division quantity_needed / minerals_per_cycle
raises ZeroDivisionError; that is the error case here. -/
def calculate_mining_time (cat : Catalog) (mineral_type_id : Nat)
    (quantity_needed : Nat) : Except Unit ℚ :=
  match cat.oreFor mineral_type_id with
  | none => .ok 0
  | some (_, mineral_per_ore, _) =>
    let minerals_per_cycle : ℚ := (mineral_per_ore : ℚ) * REPROCESSING_EFFICIENCY
    if minerals_per_cycle = 0 then .error ()
    else .ok ((quantity_needed : ℚ) / minerals_per_cycle * STRIP_MINER_CYCLE_TIME / 3600)

/-- get_blueprint_cost: the pair (amortized blueprint cost per run,
full blueprint market price); (0, 0) when the product has no
blueprint row. -/
def get_blueprint_cost (cat : Catalog) (cfg : Config) (product_type_id : Nat) : ℚ × ℚ :=
  match cat.blueprintId product_type_id with
  | none => (0, 0)
  | some bpid =>
    let bp_price := cat.price bpid
    let amortized_cost : ℚ :=
      if 0 < cfg.BLUEPRINT_RUNS ∧ cfg.INCLUDE_BLUEPRINT_COST then
        bp_price / (cfg.BLUEPRINT_RUNS : ℚ)
      else 0
    (amortized_cost, bp_price)

mutual

/-- safe_cost_to_build: the cycle-safety wrapper.  If the id is
already in the in-progress set, substitute the raw market price
vector without recursing and without touching the cache; otherwise
add the id to the in-progress set and run _cost_to_build.  The Python
remove after the recursive call is the implicit restoration of the
downward-passed visited set on the ok path; on the error path the
remove is skipped (there is no try/finally in src/main.py), so the
error payload keeps the visited set of the raise point unchanged. -/
def safe_cost_to_build (cat : Catalog) (cfg : Config) (visited : Finset Nat)
    (c : Cache) (type_id : Nat) : Except RunErr (CostVector × Cache) :=
  if type_id ∈ visited then
    .ok (⟨cat.price type_id, 0, 0, 0, 0⟩, c)
  else
    cost_to_build cat cfg (insert type_id visited) c type_id
termination_by ((cat.bpDomain \ visited).card, 2, 0)
decreasing_by
  by_cases hb : type_id ∈ cat.bpDomain
  · apply Prod.Lex.left
    apply Finset.card_lt_card
    rw [Finset.ssubset_iff_of_subset
      (Finset.sdiff_subset_sdiff (Finset.Subset.refl _) (Finset.subset_insert _ _))]
    exact ⟨type_id, Finset.mem_sdiff.2 ⟨hb, by assumption⟩, by simp⟩
  · have heq : cat.bpDomain \ insert type_id visited = cat.bpDomain \ visited := by
      ext x
      simp only [Finset.mem_sdiff, Finset.mem_insert, not_or]
      constructor
      · rintro ⟨h1, _, h3⟩
        exact ⟨h1, h3⟩
      · rintro ⟨h1, h2⟩
        exact ⟨h1, fun he => hb (he ▸ h1), h2⟩
    rw [heq, if_neg hb]
    exact Prod.Lex.right _ (Prod.Lex.left _ _ (by norm_num))

/-- _cost_to_build with the lru_cache made explicit: a cache hit
returns the memoized vector; otherwise the body runs and its result
is written to the cache.  An item with no blueprint is a base
material: zero vector when self-sufficiency applies to it, market
price vector otherwise.  An item with a blueprint accumulates its
material contributions and then adds the blueprint terms. -/
def cost_to_build (cat : Catalog) (cfg : Config) (visited : Finset Nat)
    (c : Cache) (type_id : Nat) : Except RunErr (CostVector × Cache) :=
  match c type_id with
  | some v => .ok (v, c)
  | none =>
    if hbp : type_id ∈ cat.bpDomain then
      match mat_loop cat cfg visited c (cat.materials type_id) with
      | .error e => .error e
      | .ok (acc, c1) =>
        let bp := get_blueprint_cost cat cfg type_id
        let v : CostVector :=
          ⟨acc.cost, acc.mining_hours, acc.pi_hours,
            acc.blueprint_cost + bp.1, acc.full_bp_price + bp.2⟩
        .ok (v, updateCache c1 type_id v)
    else
      let v : CostVector :=
        if cfg.ENABLE_SELF_SUFFICIENT then
          if is_mineral cat type_id then ⟨0, 0, 0, 0, 0⟩
          else if is_pi_material cat type_id then ⟨0, 0, 0, 0, 0⟩
          else ⟨cat.price type_id, 0, 0, 0, 0⟩
        else ⟨cat.price type_id, 0, 0, 0, 0⟩
      .ok (v, updateCache c type_id v)
termination_by
  ((cat.bpDomain \ visited).card, if type_id ∈ cat.bpDomain then 3 else 1, 0)
decreasing_by
  rw [if_pos hbp]
  exact Prod.Lex.right _ (Prod.Lex.left _ _ (by norm_num))

/-- The materials loop of _cost_to_build.  Per material: in
self-sufficiency mode a mineral contributes only its mining time and
a planetary commodity only the flat 0.01 hours per unit; every other
material is resolved recursively and every one of its five fields is
multiplied by the quantity and accumulated. -/
def mat_loop (cat : Catalog) (cfg : Config) (visited : Finset Nat)
    (c : Cache) : List (Nat × Nat) → Except RunErr (CostVector × Cache)
  | [] => .ok (⟨0, 0, 0, 0, 0⟩, c)
  | (mat_id, qty) :: rest =>
    if cfg.ENABLE_SELF_SUFFICIENT && is_mineral cat mat_id then
      match calculate_mining_time cat mat_id qty with
      | .error _ => .error (visited, c)
      | .ok mining_time =>
        match mat_loop cat cfg visited c rest with
        | .error e => .error e
        | .ok (acc, c2) =>
          .ok (⟨acc.cost, mining_time + acc.mining_hours, acc.pi_hours,
            acc.blueprint_cost, acc.full_bp_price⟩, c2)
    else if cfg.ENABLE_SELF_SUFFICIENT && is_pi_material cat mat_id then
      match mat_loop cat cfg visited c rest with
      | .error e => .error e
      | .ok (acc, c2) =>
        .ok (⟨acc.cost, acc.mining_hours, (qty : ℚ) * (1 / 100) + acc.pi_hours,
          acc.blueprint_cost, acc.full_bp_price⟩, c2)
    else
      match safe_cost_to_build cat cfg visited c mat_id with
      | .error e => .error e
      | .ok (v, c1) =>
        match mat_loop cat cfg visited c1 rest with
        | .error e => .error e
        | .ok (acc, c2) =>
          .ok (⟨v.cost * (qty : ℚ) + acc.cost,
            v.mining_hours * (qty : ℚ) + acc.mining_hours,
            v.pi_hours * (qty : ℚ) + acc.pi_hours,
            v.blueprint_cost * (qty : ℚ) + acc.blueprint_cost,
            v.full_bp_price * (qty : ℚ) + acc.full_bp_price⟩, c2)
termination_by mats => ((cat.bpDomain \ visited).card, 2, mats.length)
decreasing_by
  · simp_wf
    exact Prod.Lex.right _ (Prod.Lex.right _ (Nat.lt_succ_self _))
  · simp_wf
    exact Prod.Lex.right _ (Prod.Lex.right _ (Nat.lt_succ_self _))
  · simp_wf
    exact Prod.Lex.right _ (Prod.Lex.right _ (Nat.succ_pos _))
  · simp_wf
    exact Prod.Lex.right _ (Prod.Lex.right _ (Nat.lt_succ_self _))

end

/-- Project the cost vector out of a resolver result. -/
def resultVec : Except RunErr (CostVector × Cache) → Option CostVector
  | .ok (v, _) => some v
  | .error _ => none

/-- One result dict of analyze_profits.  The four self-sufficiency
fields are only present (some) when ENABLE_SELF_SUFFICIENT is set,
mirroring the conditional dict keys of the script. -/
structure Row where
  type_id : Nat
  name : String
  build_cost : ℚ
  blueprint_cost : ℚ
  blueprint_price : ℚ
  total_cost : ℚ
  sell_value : ℚ
  profit : ℚ
  daily_volume : ℚ
  mining_hours : Option ℚ
  pi_hours : Option ℚ
  total_hours : Option ℚ
  isk_per_hour : Option ℚ
deriving DecidableEq, Repr

/-- The candidate loop of analyze_profits.  Per candidate: skip when
the daily volume is below the configured minimum; resolve the cost
vector (the lru_cache persists across iterations, the visited set is
empty between top-level calls); scale the monetary and time fields by
UNITS_TO_COMPARE but not the one-time blueprint price; skip when the
full blueprint price is 0; otherwise emit a result row.  Sorting and
export permute and print the collected rows and are not modelled. -/
def analyze_loop (cat : Catalog) (cfg : Config) (c : Cache) :
    List Nat → Except RunErr (List Row × Cache)
  | [] => .ok ([], c)
  | type_id :: rest =>
    let volume := cat.volume type_id
    if volume < cfg.MIN_DAILY_VOLUME then analyze_loop cat cfg c rest
    else
      match safe_cost_to_build cat cfg ∅ c type_id with
      | .error e => .error e
      | .ok (v, c1) =>
        let build_cost := v.cost * cfg.UNITS_TO_COMPARE
        let mining_hours := v.mining_hours * cfg.UNITS_TO_COMPARE
        let pi_hours := v.pi_hours * cfg.UNITS_TO_COMPARE
        let bp_cost := v.blueprint_cost * cfg.UNITS_TO_COMPARE
        if v.full_bp_price = 0 then analyze_loop cat cfg c1 rest
        else
          let sell_value := cat.price type_id * cfg.UNITS_TO_COMPARE
          let total_cost := build_cost + bp_cost
          let profit := sell_value - total_cost
          let total_hours := mining_hours + pi_hours
          let row : Row :=
            ⟨type_id, cat.typeName type_id, build_cost, bp_cost,
              v.full_bp_price, total_cost, sell_value, profit, volume,
              if cfg.ENABLE_SELF_SUFFICIENT then some mining_hours else none,
              if cfg.ENABLE_SELF_SUFFICIENT then some pi_hours else none,
              if cfg.ENABLE_SELF_SUFFICIENT then some total_hours else none,
              if cfg.ENABLE_SELF_SUFFICIENT then
                some (if 0 < total_hours then profit / total_hours else 0)
              else none⟩
          match analyze_loop cat cfg c1 rest with
          | .error e => .error e
          | .ok (rows, c2) => .ok (row :: rows, c2)

/-- analyze_profits on a given candidate list, starting from the
empty module-level caches. -/
def analyze_profits (cat : Catalog) (cfg : Config) (product_ids : List Nat) :
    Except RunErr (List Row × Cache) :=
  analyze_loop cat cfg emptyCache product_ids

/-- All five fields of a cost vector are non-negative. -/
def VecNonneg (v : CostVector) : Prop :=
  0 ≤ v.cost ∧ 0 ≤ v.mining_hours ∧ 0 ≤ v.pi_hours ∧
    0 ≤ v.blueprint_cost ∧ 0 ≤ v.full_bp_price

/-- Every memoized vector in the cache is non-negative. -/
def CacheNonneg (c : Cache) : Prop :=
  ∀ i v, c i = some v → VecNonneg v

/-- The market oracle never reports a negative price (it reports 0.0
for unknown items). -/
def PricesNonneg (cat : Catalog) : Prop :=
  ∀ i, 0 ≤ cat.price i

/-- Every ore row of the reprocessing table has a positive mineral
yield (the data-integrity condition under which the Python division
in calculate_mining_time cannot raise). -/
def OresPositive (cat : Catalog) : Prop :=
  ∀ m ore_id y vol, cat.oreFor m = some (ore_id, y, vol) → 0 < y

theorem calculate_mining_time_ok (cat : Catalog) (ho : OresPositive cat)
    (m q : Nat) : ∃ t, calculate_mining_time cat m q = .ok t ∧ 0 ≤ t := by
  unfold calculate_mining_time
  cases horef : cat.oreFor m with
  | none => exact ⟨0, rfl, le_refl 0⟩
  | some row =>
    obtain ⟨o, y, vol⟩ := row
    have hy := ho m o y vol horef
    have hmpc : (0 : ℚ) < (y : ℚ) * REPROCESSING_EFFICIENCY := by
      apply mul_pos
      · exact_mod_cast hy
      · norm_num [REPROCESSING_EFFICIENCY]
    have hne : ((y : ℚ) * REPROCESSING_EFFICIENCY) ≠ 0 := ne_of_gt hmpc
    refine ⟨(q : ℚ) / ((y : ℚ) * REPROCESSING_EFFICIENCY) * STRIP_MINER_CYCLE_TIME / 3600,
      ?_, ?_⟩
    · simp [hne]
    · apply div_nonneg
      · apply mul_nonneg
        · exact div_nonneg (Nat.cast_nonneg q) (le_of_lt hmpc)
        · norm_num [STRIP_MINER_CYCLE_TIME]
      · norm_num

theorem get_blueprint_cost_nonneg (cat : Catalog) (cfg : Config) (id : Nat)
    (hp : PricesNonneg cat) :
    0 ≤ (get_blueprint_cost cat cfg id).1 ∧ 0 ≤ (get_blueprint_cost cat cfg id).2 := by
  unfold get_blueprint_cost
  cases hb : cat.blueprintId id with
  | none => norm_num
  | some bpid =>
    simp only
    constructor
    · by_cases hcond : 0 < cfg.BLUEPRINT_RUNS ∧ cfg.INCLUDE_BLUEPRINT_COST
      · rw [if_pos hcond]
        apply div_nonneg (hp bpid)
        exact_mod_cast le_of_lt hcond.1
      · rw [if_neg hcond]
    · exact hp bpid

theorem updateCache_nonneg {c : Cache} {v : CostVector} (hc : CacheNonneg c)
    (hv : VecNonneg v) (id : Nat) : CacheNonneg (updateCache c id v) := by
  intro j w hw
  by_cases hj : j = id
  · have : some v = some w := by simpa [updateCache, hj] using hw
    cases this
    exact hv
  · exact hc j w (by simpa [updateCache, hj] using hw)

theorem mat_loop_ok (cat : Catalog) (cfg : Config) (hp : PricesNonneg cat)
    (ho : OresPositive cat) (visited : Finset Nat)
    (hsafe : ∀ c id, CacheNonneg c → ∃ v c2,
      safe_cost_to_build cat cfg visited c id = .ok (v, c2) ∧ VecNonneg v ∧ CacheNonneg c2) :
    ∀ (mats : List (Nat × Nat)) (c : Cache), CacheNonneg c →
      ∃ a c2, mat_loop cat cfg visited c mats = .ok (a, c2) ∧ VecNonneg a ∧ CacheNonneg c2 := by
  intro mats
  induction mats with
  | nil =>
    intro c hc
    exact ⟨⟨0, 0, 0, 0, 0⟩, c, by simp [mat_loop], by norm_num [VecNonneg], hc⟩
  | cons head rest ih =>
    obtain ⟨mat_id, qty⟩ := head
    intro c hc
    by_cases h1 : (cfg.ENABLE_SELF_SUFFICIENT && is_mineral cat mat_id) = true
    · obtain ⟨t, ht, htn⟩ := calculate_mining_time_ok cat ho mat_id qty
      obtain ⟨a, c2, hrest, han, hc2⟩ := ih c hc
      refine ⟨⟨a.cost, t + a.mining_hours, a.pi_hours, a.blueprint_cost,
        a.full_bp_price⟩, c2, ?_, ?_, hc2⟩
      · simp [mat_loop, h1, ht, hrest]
      · exact ⟨han.1, add_nonneg htn han.2.1, han.2.2.1, han.2.2.2.1, han.2.2.2.2⟩
    · by_cases h2 : (cfg.ENABLE_SELF_SUFFICIENT && is_pi_material cat mat_id) = true
      · obtain ⟨a, c2, hrest, han, hc2⟩ := ih c hc
        refine ⟨⟨a.cost, a.mining_hours, (qty : ℚ) * (1 / 100) + a.pi_hours,
          a.blueprint_cost, a.full_bp_price⟩, c2, ?_, ?_, hc2⟩
        · simp [mat_loop, h1, h2, hrest]
        · refine ⟨han.1, han.2.1, add_nonneg ?_ han.2.2.1, han.2.2.2.1, han.2.2.2.2⟩
          apply mul_nonneg (Nat.cast_nonneg qty)
          norm_num
      · obtain ⟨v, c1, hs, hvn, hc1⟩ := hsafe c mat_id hc
        obtain ⟨a, c2, hrest, han, hc2⟩ := ih c1 hc1
        refine ⟨⟨v.cost * (qty : ℚ) + a.cost,
          v.mining_hours * (qty : ℚ) + a.mining_hours,
          v.pi_hours * (qty : ℚ) + a.pi_hours,
          v.blueprint_cost * (qty : ℚ) + a.blueprint_cost,
          v.full_bp_price * (qty : ℚ) + a.full_bp_price⟩, c2, ?_, ?_, hc2⟩
        · simp [mat_loop, h1, h2, hs, hrest]
        · exact ⟨add_nonneg (mul_nonneg hvn.1 (Nat.cast_nonneg qty)) han.1,
            add_nonneg (mul_nonneg hvn.2.1 (Nat.cast_nonneg qty)) han.2.1,
            add_nonneg (mul_nonneg hvn.2.2.1 (Nat.cast_nonneg qty)) han.2.2.1,
            add_nonneg (mul_nonneg hvn.2.2.2.1 (Nat.cast_nonneg qty)) han.2.2.2.1,
            add_nonneg (mul_nonneg hvn.2.2.2.2 (Nat.cast_nonneg qty)) han.2.2.2.2⟩

theorem safe_cost_to_build_ok (cat : Catalog) (cfg : Config)
    (hp : PricesNonneg cat) (ho : OresPositive cat) :
    ∀ (n : Nat) (visited : Finset Nat), (cat.bpDomain \ visited).card ≤ n →
      ∀ c id, CacheNonneg c →
        ∃ v c2, safe_cost_to_build cat cfg visited c id = .ok (v, c2) ∧
          VecNonneg v ∧ CacheNonneg c2 := by
  have hz : VecNonneg ⟨0, 0, 0, 0, 0⟩ := by norm_num [VecNonneg]
  intro n
  induction n with
  | zero =>
    intro visited hcard c id hc
    by_cases hv : id ∈ visited
    · exact ⟨⟨cat.price id, 0, 0, 0, 0⟩, c,
        by simp only [safe_cost_to_build, if_pos hv],
        ⟨hp id, le_refl 0, le_refl 0, le_refl 0, le_refl 0⟩, hc⟩
    · cases hci : c id with
      | some w =>
        exact ⟨w, c, by simp only [safe_cost_to_build, if_neg hv, cost_to_build, hci],
          hc id w hci, hc⟩
      | none =>
        by_cases hbp : id ∈ cat.bpDomain
        · exfalso
          have : id ∈ cat.bpDomain \ visited := Finset.mem_sdiff.2 ⟨hbp, hv⟩
          have hne : (cat.bpDomain \ visited).Nonempty := ⟨id, this⟩
          have := Finset.card_pos.2 hne
          omega
        · set w : CostVector :=
            if cfg.ENABLE_SELF_SUFFICIENT then
              if is_mineral cat id then ⟨0, 0, 0, 0, 0⟩
              else if is_pi_material cat id then ⟨0, 0, 0, 0, 0⟩
              else ⟨cat.price id, 0, 0, 0, 0⟩
            else ⟨cat.price id, 0, 0, 0, 0⟩ with hw
          have hwn : VecNonneg w := by
            rw [hw]
            split
            · split
              · exact hz
              · split
                · exact hz
                · exact ⟨hp id, le_refl 0, le_refl 0, le_refl 0, le_refl 0⟩
            · exact ⟨hp id, le_refl 0, le_refl 0, le_refl 0, le_refl 0⟩
          refine ⟨w, updateCache c id w, ?_, hwn, updateCache_nonneg hc hwn id⟩
          simp only [safe_cost_to_build, if_neg hv, cost_to_build, hci, dif_neg hbp]
  | succ m ih =>
    intro visited hcard c id hc
    by_cases hv : id ∈ visited
    · exact ⟨⟨cat.price id, 0, 0, 0, 0⟩, c,
        by simp only [safe_cost_to_build, if_pos hv],
        ⟨hp id, le_refl 0, le_refl 0, le_refl 0, le_refl 0⟩, hc⟩
    · cases hci : c id with
      | some w =>
        exact ⟨w, c, by simp only [safe_cost_to_build, if_neg hv, cost_to_build, hci],
          hc id w hci, hc⟩
      | none =>
        by_cases hbp : id ∈ cat.bpDomain
        · have hlt : (cat.bpDomain \ insert id visited).card <
              (cat.bpDomain \ visited).card := by
            apply Finset.card_lt_card
            rw [Finset.ssubset_iff_of_subset
              (Finset.sdiff_subset_sdiff (Finset.Subset.refl _) (Finset.subset_insert _ _))]
            exact ⟨id, Finset.mem_sdiff.2 ⟨hbp, hv⟩, by simp⟩
          have hsafe1 : ∀ c2 id2, CacheNonneg c2 → ∃ v c3,
              safe_cost_to_build cat cfg (insert id visited) c2 id2 = .ok (v, c3) ∧
                VecNonneg v ∧ CacheNonneg c3 :=
            fun c2 id2 hcc => ih (insert id visited) (by omega) c2 id2 hcc
          obtain ⟨a, c1, hloop, han, hc1⟩ :=
            mat_loop_ok cat cfg hp ho (insert id visited) hsafe1 (cat.materials id) c hc
          obtain ⟨hb1, hb2⟩ := get_blueprint_cost_nonneg cat cfg id hp
          set w : CostVector :=
            ⟨a.cost, a.mining_hours, a.pi_hours,
              a.blueprint_cost + (get_blueprint_cost cat cfg id).1,
              a.full_bp_price + (get_blueprint_cost cat cfg id).2⟩ with hw
          have hwn : VecNonneg w :=
            ⟨han.1, han.2.1, han.2.2.1, add_nonneg han.2.2.2.1 hb1,
              add_nonneg han.2.2.2.2 hb2⟩
          refine ⟨w, updateCache c1 id w, ?_, hwn, updateCache_nonneg hc1 hwn id⟩
          simp only [safe_cost_to_build, if_neg hv, cost_to_build, hci, dif_pos hbp, hloop]
        · set w : CostVector :=
            if cfg.ENABLE_SELF_SUFFICIENT then
              if is_mineral cat id then ⟨0, 0, 0, 0, 0⟩
              else if is_pi_material cat id then ⟨0, 0, 0, 0, 0⟩
              else ⟨cat.price id, 0, 0, 0, 0⟩
            else ⟨cat.price id, 0, 0, 0, 0⟩ with hw
          have hwn : VecNonneg w := by
            rw [hw]
            split
            · split
              · exact hz
              · split
                · exact hz
                · exact ⟨hp id, le_refl 0, le_refl 0, le_refl 0, le_refl 0⟩
            · exact ⟨hp id, le_refl 0, le_refl 0, le_refl 0, le_refl 0⟩
          refine ⟨w, updateCache c id w, ?_, hwn, updateCache_nonneg hc hwn id⟩
          simp only [safe_cost_to_build, if_neg hv, cost_to_build, hci, dif_neg hbp]

/-!
Concrete catalogs and configurations used as witnesses and
counterexamples.  Each models a tiny dataset exercising the code path
named by the corresponding claim.
-/

/-- Market-purchase configuration (self-sufficiency off, blueprint
cost on, 10 amortization runs), mirroring the constant block of
src/main.py with ENABLE_SELF_SUFFICIENT flipped off. -/
def cfgMarket : Config where
  ENABLE_SELF_SUFFICIENT := false
  INCLUDE_BLUEPRINT_COST := true
  BLUEPRINT_RUNS := 10
  MIN_DAILY_VOLUME := 5
  UNITS_TO_COMPARE := 10

/-- Self-sufficient configuration, mirroring the shipped constants of
src/main.py. -/
def cfgSelf : Config where
  ENABLE_SELF_SUFFICIENT := true
  INCLUDE_BLUEPRINT_COST := true
  BLUEPRINT_RUNS := 10
  MIN_DAILY_VOLUME := 5
  UNITS_TO_COMPARE := 10

/-- A two-item catalog whose recipes form the synthetic cycle of the
spec: item 1 needs item 2 and item 2 needs item 1. -/
def cycCat : Catalog where
  price := fun _ => 5
  volume := fun _ => 100
  typeName := fun _ => ""
  groupID := fun _ => none
  categoryID := fun _ => none
  oreFor := fun _ => none
  bpDomain := {1, 2}
  blueprintId := fun _ => none
  materials := fun i => if i = 1 then [(2, 1)] else if i = 2 then [(1, 1)] else []
  outputQuantity := fun _ => 1

/-- Claim C2: for every production graph containing a cycle (item A
needs B and B needs A), resolve(A) terminates and returns a finite,
non-negative CostVector; the resolver never recurses infinitely.
Termination is witnessed by safe_cost_to_build being a total function
(its well-founded recursion mirrors the Python argument: the visited
set only grows along a call chain and recursion continues only into
the finitely many items that have a blueprint); all values are
rationals, hence finite.  Non-negativity holds for every catalog with
non-negative oracle prices and positive ore yields, any configuration
and any well-formed starting cache. -/
theorem resolver_cycle_terminates_nonneg (cat : Catalog) (cfg : Config)
    (A B qa qb : Nat) (hAB : (B, qb) ∈ cat.materials A)
    (hBA : (A, qa) ∈ cat.materials B) (hp : PricesNonneg cat)
    (ho : OresPositive cat) (c : Cache) (hc : CacheNonneg c) :
    ∃ v c2, safe_cost_to_build cat cfg ∅ c A = .ok (v, c2) ∧ VecNonneg v := by
  obtain ⟨v, c2, h1, h2, _⟩ :=
    safe_cost_to_build_ok cat cfg hp ho (cat.bpDomain \ ∅).card ∅ le_rfl c A hc
  exact ⟨v, c2, h1, h2⟩

theorem resolver_cycle_terminates_nonneg_witness :
    ((2, 1) ∈ cycCat.materials 1 ∧ (1, 1) ∈ cycCat.materials 2 ∧
      PricesNonneg cycCat ∧ OresPositive cycCat ∧ CacheNonneg emptyCache) ∧
    (∃ v c2, safe_cost_to_build cycCat cfgMarket ∅ emptyCache 1 = .ok (v, c2) ∧
      VecNonneg v) :=
  ⟨⟨by decide, by decide, fun i => by norm_num [cycCat],
    fun m o y vol h => by simp [cycCat] at h,
    fun i v h => Option.noConfusion h⟩,
    resolver_cycle_terminates_nonneg cycCat cfgMarket 1 2 1 1 (by decide) (by decide)
      (fun i => by norm_num [cycCat]) (fun m o y vol h => by simp [cycCat] at h)
      emptyCache (fun i v h => Option.noConfusion h)⟩

/-- Claim C4: when a cycle is detected (the id is already in the
in-progress set), resolve substitutes the raw market price vector
without recursing and returns the cache unchanged, so the fallback is
never stored as the resolved value of that id; and any later call
with the id not in progress and not yet cached computes a value and
does cache it under that id. -/
theorem cycle_fallback_not_cached (cat : Catalog) (cfg : Config)
    (visited : Finset Nat) (c : Cache) (id : Nat) (h : id ∈ visited) :
    safe_cost_to_build cat cfg visited c id = .ok (⟨cat.price id, 0, 0, 0, 0⟩, c) ∧
    (∀ V2 c2, id ∉ V2 → c2 id = none →
      ∀ v c3, safe_cost_to_build cat cfg V2 c2 id = .ok (v, c3) → c3 id = some v) := by
  constructor
  · simp only [safe_cost_to_build, if_pos h]
  · intro V2 c2 hv hc2 v c3 hok
    simp only [safe_cost_to_build, if_neg hv, cost_to_build, hc2] at hok
    by_cases hbp : id ∈ cat.bpDomain
    · rw [dif_pos hbp] at hok
      cases hml : mat_loop cat cfg (insert id V2) c2 (cat.materials id) with
      | error e => rw [hml] at hok; exact absurd hok (by simp)
      | ok pr =>
        obtain ⟨a, c1⟩ := pr
        rw [hml] at hok
        simp only [Except.ok.injEq, Prod.mk.injEq] at hok
        obtain ⟨hv1, hc3⟩ := hok
        rw [← hc3, ← hv1]
        simp [updateCache]
    · rw [dif_neg hbp] at hok
      simp only [Except.ok.injEq, Prod.mk.injEq] at hok
      obtain ⟨hv1, hc3⟩ := hok
      rw [← hc3, ← hv1]
      simp [updateCache]

theorem cycle_fallback_not_cached_witness :
    ((1 : Nat) ∈ ({1} : Finset Nat)) ∧
    (safe_cost_to_build cycCat cfgMarket {1} emptyCache 1 =
      .ok (⟨cycCat.price 1, 0, 0, 0, 0⟩, emptyCache) ∧
    (∀ V2 c2, 1 ∉ V2 → c2 1 = none →
      ∀ v c3, safe_cost_to_build cycCat cfgMarket V2 c2 1 = .ok (v, c3) →
        c3 1 = some v)) :=
  ⟨by decide, cycle_fallback_not_cached cycCat cfgMarket {1} emptyCache 1 (by decide)⟩

/-- A catalog family for the material-quantity scaling claims:
item 1 is built from q units of item 2; item 2 is built from nothing
but has a blueprint (type 100) whose market price is P; item 1 has
no blueprint row of its own. -/
def c7CatP (q : Nat) (P : ℚ) : Catalog where
  price := fun i => if i = 100 then P else 0
  volume := fun _ => 100
  typeName := fun _ => ""
  groupID := fun _ => none
  categoryID := fun _ => none
  oreFor := fun _ => none
  bpDomain := {1, 2}
  blueprintId := fun i => if i = 2 then some 100 else none
  materials := fun i => if i = 1 then [(2, q)] else []
  outputQuantity := fun _ => 1

/-- Market-purchase configuration with 2 amortization runs. -/
def c7Cfg : Config where
  ENABLE_SELF_SUFFICIENT := false
  INCLUDE_BLUEPRINT_COST := true
  BLUEPRINT_RUNS := 2
  MIN_DAILY_VOLUME := 5
  UNITS_TO_COMPARE := 10

/-- Claim C5: for every item whose blueprint row exists, the
recipe-level blueprint terms are: amortized part P / R exactly when
the blueprint-cost feature is on and R > 0, otherwise 0; and the full
market price P, which _cost_to_build adds unamortized to the one-time
field while the amortized part goes to blueprint_cost. -/
theorem blueprint_amortization (cat : Catalog) (cfg : Config) (id bpid : Nat)
    (h : cat.blueprintId id = some bpid) :
    (get_blueprint_cost cat cfg id).1 =
      (if cfg.INCLUDE_BLUEPRINT_COST = true ∧ 0 < cfg.BLUEPRINT_RUNS then
        cat.price bpid / (cfg.BLUEPRINT_RUNS : ℚ) else 0) ∧
    (get_blueprint_cost cat cfg id).2 = cat.price bpid ∧
    (∀ V c acc c1, id ∈ cat.bpDomain → c id = none →
      mat_loop cat cfg V c (cat.materials id) = .ok (acc, c1) →
      resultVec (cost_to_build cat cfg V c id) =
        some ⟨acc.cost, acc.mining_hours, acc.pi_hours,
          acc.blueprint_cost + (get_blueprint_cost cat cfg id).1,
          acc.full_bp_price + (get_blueprint_cost cat cfg id).2⟩) := by
  refine ⟨?_, ?_, ?_⟩
  · unfold get_blueprint_cost
    rw [h]
    simp only
    by_cases hcond : 0 < cfg.BLUEPRINT_RUNS ∧ cfg.INCLUDE_BLUEPRINT_COST
    · rw [if_pos hcond, if_pos ⟨hcond.2, hcond.1⟩]
    · rw [if_neg hcond, if_neg (fun hx => hcond ⟨hx.2, hx.1⟩)]
  · unfold get_blueprint_cost
    rw [h]
  · intro V c acc c1 hbp hc hml
    simp only [cost_to_build, hc, dif_pos hbp, hml, resultVec]

theorem blueprint_amortization_witness :
    ((c7CatP 1 1).blueprintId 2 = some 100) ∧
    ((get_blueprint_cost (c7CatP 1 1) c7Cfg 2).1 =
      (if c7Cfg.INCLUDE_BLUEPRINT_COST = true ∧ 0 < c7Cfg.BLUEPRINT_RUNS then
        (c7CatP 1 1).price 100 / (c7Cfg.BLUEPRINT_RUNS : ℚ) else 0) ∧
    (get_blueprint_cost (c7CatP 1 1) c7Cfg 2).2 = (c7CatP 1 1).price 100 ∧
    (∀ V c acc c1, 2 ∈ (c7CatP 1 1).bpDomain → c 2 = none →
      mat_loop (c7CatP 1 1) c7Cfg V c ((c7CatP 1 1).materials 2) = .ok (acc, c1) →
      resultVec (cost_to_build (c7CatP 1 1) c7Cfg V c 2) =
        some ⟨acc.cost, acc.mining_hours, acc.pi_hours,
          acc.blueprint_cost + (get_blueprint_cost (c7CatP 1 1) c7Cfg 2).1,
          acc.full_bp_price + (get_blueprint_cost (c7CatP 1 1) c7Cfg 2).2⟩)) :=
  ⟨rfl, blueprint_amortization (c7CatP 1 1) c7Cfg 2 100 rfl⟩

/-- Claim C6: an item with no recipe that is not treated as a free
resource (not a mineral or planetary commodity under enabled
self-sufficiency) resolves to the vector (price, 0, 0, 0, 0), which
is also what gets cached for it. -/
theorem no_recipe_market_price (cat : Catalog) (cfg : Config)
    (visited : Finset Nat) (c : Cache) (id : Nat) (hb : id ∉ cat.bpDomain)
    (hv : id ∉ visited) (hc : c id = none)
    (hfree : ¬(cfg.ENABLE_SELF_SUFFICIENT = true ∧
      (is_mineral cat id = true ∨ is_pi_material cat id = true))) :
    safe_cost_to_build cat cfg visited c id =
      .ok (⟨cat.price id, 0, 0, 0, 0⟩, updateCache c id ⟨cat.price id, 0, 0, 0, 0⟩) := by
  simp only [safe_cost_to_build, if_neg hv, cost_to_build, hc, dif_neg hb]
  by_cases hss : cfg.ENABLE_SELF_SUFFICIENT = true
  · have hm : is_mineral cat id = false := by
      cases hmm : is_mineral cat id
      · rfl
      · exact absurd ⟨hss, Or.inl hmm⟩ hfree
    have hpi : is_pi_material cat id = false := by
      cases hmm : is_pi_material cat id
      · rfl
      · exact absurd ⟨hss, Or.inr hmm⟩ hfree
    simp [hss, hm, hpi]
  · have hss2 : cfg.ENABLE_SELF_SUFFICIENT = false := by
      cases hmm : cfg.ENABLE_SELF_SUFFICIENT
      · rfl
      · exact absurd hmm hss
    simp [hss2]

theorem no_recipe_market_price_witness :
    ((3 : Nat) ∉ cycCat.bpDomain ∧ (3 : Nat) ∉ (∅ : Finset Nat) ∧
      emptyCache 3 = none ∧
      ¬(cfgSelf.ENABLE_SELF_SUFFICIENT = true ∧
        (is_mineral cycCat 3 = true ∨ is_pi_material cycCat 3 = true))) ∧
    safe_cost_to_build cycCat cfgSelf ∅ emptyCache 3 =
      .ok (⟨cycCat.price 3, 0, 0, 0, 0⟩,
        updateCache emptyCache 3 ⟨cycCat.price 3, 0, 0, 0, 0⟩) :=
  ⟨⟨by decide, by decide, rfl, by decide⟩,
    no_recipe_market_price cycCat cfgSelf ∅ emptyCache 3 (by decide) (by decide)
      rfl (by decide)⟩

/-- Claim C10: in self-sufficiency mode, a mineral material for which
no ore reprocesses into it gets mining time 0.0 and contributes
nothing at all to the parent item: the materials loop on
(m, q) :: rest returns exactly what it returns on rest, for any
quantity q. -/
theorem mineral_without_ore_is_free (cat : Catalog) (cfg : Config)
    (visited : Finset Nat) (c : Cache) (m q : Nat) (rest : List (Nat × Nat))
    (hss : cfg.ENABLE_SELF_SUFFICIENT = true) (hm : is_mineral cat m = true)
    (hore : cat.oreFor m = none) :
    calculate_mining_time cat m q = .ok 0 ∧
    mat_loop cat cfg visited c ((m, q) :: rest) = mat_loop cat cfg visited c rest := by
  have hcm : calculate_mining_time cat m q = .ok 0 := by
    unfold calculate_mining_time
    rw [hore]
  refine ⟨hcm, ?_⟩
  simp only [mat_loop, hss, hm, Bool.and_self, if_pos, hcm]
  cases hrest : mat_loop cat cfg visited c rest with
  | error e => simp [hrest]
  | ok pr =>
    obtain ⟨a, c2⟩ := pr
    simp [hrest]

/-- A catalog family for the yield-normalization claim: item 1 is
built from q units of item 2 (market price P, no recipe); the
catalog declares output quantity Qo for item 1, a column src/main.py
never reads. -/
def c1CatP (q Qo : Nat) (P : ℚ) : Catalog where
  price := fun i => if i = 2 then P else 0
  volume := fun _ => 100
  typeName := fun _ => ""
  groupID := fun _ => none
  categoryID := fun _ => none
  oreFor := fun _ => none
  bpDomain := {1}
  blueprintId := fun _ => none
  materials := fun i => if i = 1 then [(2, q)] else []
  outputQuantity := fun i => if i = 1 then Qo else 1

/-- Claim C1 counterexample: item 1 has output quantity 2 and one
material (one unit of item 2 at price 10), so the raw accumulated
material cost C is 10.  The claim predicts resolved moneyCost
C / Q = 5; the code returns 10, because no function of src/main.py
ever queries or divides by the output quantity. -/
theorem yield_normalization_counterexample :
    resultVec (safe_cost_to_build (c1CatP 1 2 10) cfgMarket ∅ emptyCache 1) =
      some ⟨10, 0, 0, 0, 0⟩ ∧
    (c1CatP 1 2 10).outputQuantity 1 = 2 ∧ ((10 : ℚ) ≠ 10 / 2) := by
  refine ⟨?_, by norm_num [c1CatP], by norm_num⟩
  simp [safe_cost_to_build, cost_to_build, mat_loop, c1CatP, cfgMarket, emptyCache,
    updateCache, get_blueprint_cost, resultVec]

/-- Claim C1 amended: the resolver performs no yield normalization at
all; for an item whose recipe has output quantity Qo > 1, the
resolved moneyCost equals the raw accumulated material cost C
(here P per unit times q units), independent of Qo, and every other
field is likewise left undivided. -/
theorem yield_normalization_amended (q Qo : Nat) (P : ℚ) (hQ : 1 < Qo) :
    resultVec (safe_cost_to_build (c1CatP q Qo P) cfgMarket ∅ emptyCache 1) =
      some ⟨P * (q : ℚ), 0, 0, 0, 0⟩ := by
  simp [safe_cost_to_build, cost_to_build, mat_loop, c1CatP, cfgMarket, emptyCache,
    updateCache, get_blueprint_cost, resultVec]

theorem yield_normalization_amended_witness :
    (1 < 2) ∧
    resultVec (safe_cost_to_build (c1CatP 3 2 10) cfgMarket ∅ emptyCache 1) =
      some ⟨10 * ((3 : Nat) : ℚ), 0, 0, 0, 0⟩ :=
  ⟨by norm_num, yield_normalization_amended 3 2 10 (by norm_num)⟩

/-- Claim C7 counterexample: item 1 needs 3 units of item 2, whose
blueprint costs 10 on the market, so the one-time field of the
sub-vector is 10.  The claim says recipeCostOneTime must not scale
with material quantity (it should stay 10); the code multiplies it by
the quantity (line 294 of src/main.py) and returns 30. -/
theorem one_time_scaling_counterexample :
    resultVec (safe_cost_to_build (c7CatP 3 10) c7Cfg ∅ emptyCache 1) =
      some ⟨0, 0, 0, 15, 30⟩ ∧ ((30 : ℚ) ≠ 10) := by
  constructor
  · simp [safe_cost_to_build, cost_to_build, mat_loop, c7CatP, c7Cfg, emptyCache,
      updateCache, get_blueprint_cost, resultVec]
    norm_num
  · norm_num

/-- Claim C7 amended: every one of the five fields of a recursively
resolved material, including recipeCostOneTime, is multiplied by the
material quantity and accumulated; resolving item 1 of the family
catalog gives amortized blueprint cost (P / 2) q and one-time cost
P q, both scaling linearly with q. -/
theorem one_time_scaling_amended (q : Nat) (P : ℚ) :
    resultVec (safe_cost_to_build (c7CatP q P) c7Cfg ∅ emptyCache 1) =
      some ⟨0, 0, 0, P / 2 * (q : ℚ), P * (q : ℚ)⟩ := by
  simp [safe_cost_to_build, cost_to_build, mat_loop, c7CatP, c7Cfg, emptyCache,
    updateCache, get_blueprint_cost, resultVec]

/-- The catalog reproducing the exception path for claim C3: item 1 is
built from 5 units of the mineral item 2, and the ore row for item 2
declares mineral yield 0, so calculate_mining_time raises
ZeroDivisionError in self-sufficiency mode. -/
def c3Cat : Catalog where
  price := fun _ => 0
  volume := fun _ => 100
  typeName := fun _ => ""
  groupID := fun i => if i = 2 then some 18 else none
  categoryID := fun _ => none
  oreFor := fun i => if i = 2 then some (3, 0, 10) else none
  bpDomain := {1}
  blueprintId := fun _ => none
  materials := fun i => if i = 1 then [(2, 5)] else []
  outputQuantity := fun _ => 1

/-- Claim C3, evaluation at the failing input: resolving item 1
raises (error case), and the error-time in-progress set still
contains item 1 — safe_cost_to_build has no try/finally, so the
visited.remove on line 247 of src/main.py is skipped when
_cost_to_build raises, contradicting the exception-safety the spec
requires. -/
theorem visited_not_restored_on_error :
    safe_cost_to_build c3Cat cfgSelf ∅ emptyCache 1 = .error ({1}, emptyCache) ∧
    (1 : Nat) ∈ ({1} : Finset Nat) := by
  constructor
  · simp [safe_cost_to_build, cost_to_build, mat_loop, c3Cat, cfgSelf, emptyCache,
      calculate_mining_time, is_mineral, is_pi_material, REPROCESSING_EFFICIENCY,
      MINERAL_GROUP_ID, ICE_PRODUCT_GROUP_ID]
  · decide

/-- Characterization of every row emitted by the candidate loop: its
recorded blueprint price is nonzero (zero-priced recipes are skipped),
and its hour/profitability fields have the guarded shape computed by
analyze_profits. -/
theorem analyze_loop_mem (cat : Catalog) (cfg : Config) :
    ∀ (ids : List Nat) (c : Cache) (rows : List Row) (c2 : Cache),
      analyze_loop cat cfg c ids = .ok (rows, c2) →
      ∀ r ∈ rows, r.blueprint_price ≠ 0 ∧
        ∃ mh ph pr,
          r.total_hours =
            (if cfg.ENABLE_SELF_SUFFICIENT then some (mh + ph) else none) ∧
          r.isk_per_hour =
            (if cfg.ENABLE_SELF_SUFFICIENT then
              some (if 0 < mh + ph then pr / (mh + ph) else 0) else none) := by
  intro ids
  induction ids with
  | nil =>
    intro c rows c2 h r hr
    simp only [analyze_loop, Except.ok.injEq, Prod.mk.injEq] at h
    rw [← h.1] at hr
    simp at hr
  | cons id rest ih =>
    intro c rows c2 h r hr
    simp only [analyze_loop] at h
    by_cases h1 : cat.volume id < cfg.MIN_DAILY_VOLUME
    · rw [if_pos h1] at h
      exact ih c rows c2 h r hr
    · rw [if_neg h1] at h
      cases hsafe : safe_cost_to_build cat cfg ∅ c id with
      | error e => simp only [hsafe] at h; exact Except.noConfusion h
      | ok pr0 =>
        obtain ⟨v, c1⟩ := pr0
        simp only [hsafe] at h
        by_cases h2 : v.full_bp_price = 0
        · rw [if_pos h2] at h
          exact ih c1 rows c2 h r hr
        · rw [if_neg h2] at h
          cases hrest : analyze_loop cat cfg c1 rest with
          | error e => simp only [hrest] at h; exact Except.noConfusion h
          | ok pr2 =>
            obtain ⟨rows2, c3⟩ := pr2
            simp only [hrest] at h
            simp only [Except.ok.injEq, Prod.mk.injEq] at h
            obtain ⟨hrows, _⟩ := h
            rw [← hrows] at hr
            cases hr with
            | head =>
              refine ⟨h2, v.mining_hours * cfg.UNITS_TO_COMPARE,
                v.pi_hours * cfg.UNITS_TO_COMPARE,
                cat.price id * cfg.UNITS_TO_COMPARE -
                  (v.cost * cfg.UNITS_TO_COMPARE +
                    v.blueprint_cost * cfg.UNITS_TO_COMPARE),
                rfl, rfl⟩
            | tail _ hmem => exact ih c1 rows2 c3 hrest r hmem

/-- Claim C8: every candidate whose recipe has no discoverable market
price (its resolved one-time blueprint price is 0) is silently
skipped by analyze_profits: every row of the output set records a
nonzero blueprint price. -/
theorem zero_recipe_price_skipped (cat : Catalog) (cfg : Config)
    (ids : List Nat) (rows : List Row) (c2 : Cache)
    (h : analyze_profits cat cfg ids = .ok (rows, c2)) :
    ∀ r ∈ rows, r.blueprint_price ≠ 0 :=
  fun r hr => (analyze_loop_mem cat cfg ids emptyCache rows c2 h r hr).1

/-- Claim C9: in self-sufficiency mode, a row whose total hours are 0
reports 0 isk per hour: the division profit / totalHours is guarded
by totalHours > 0, so no error or infinity (which rationals cannot
even represent) arises. -/
theorem zero_hours_isk_guard (cat : Catalog) (cfg : Config)
    (ids : List Nat) (rows : List Row) (c2 : Cache)
    (h : analyze_profits cat cfg ids = .ok (rows, c2))
    (hss : cfg.ENABLE_SELF_SUFFICIENT = true)
    (r : Row) (hr : r ∈ rows) (hth : r.total_hours = some 0) :
    r.isk_per_hour = some 0 := by
  obtain ⟨-, mh, ph, pr, hth2, hisk⟩ :=
    analyze_loop_mem cat cfg ids emptyCache rows c2 h r hr
  simp only [hss, if_true] at hth2 hisk
  have he : some (mh + ph) = some 0 := hth2.symm.trans hth
  have h0 : mh + ph = 0 := by injection he
  rw [hisk, h0]
  norm_num

/-- A one-item catalog whose single candidate resolves with a zero
one-time blueprint price (no blueprint row exists for item 1 in
c1CatP), so the ranking loop must skip it. -/
theorem zero_recipe_price_skipped_witness :
    (analyze_profits (c1CatP 1 2 10) cfgMarket [1] =
      .ok ([], updateCache (updateCache emptyCache 2 ⟨10, 0, 0, 0, 0⟩) 1
        ⟨10, 0, 0, 0, 0⟩)) ∧
    (∀ r ∈ ([] : List Row), r.blueprint_price ≠ 0) :=
  ⟨by norm_num [analyze_profits, analyze_loop, safe_cost_to_build, cost_to_build,
      mat_loop, c1CatP, cfgMarket, emptyCache, get_blueprint_cost],
    zero_recipe_price_skipped (c1CatP 1 2 10) cfgMarket [1] []
      (updateCache (updateCache emptyCache 2 ⟨10, 0, 0, 0, 0⟩) 1 ⟨10, 0, 0, 0, 0⟩)
      (by norm_num [analyze_profits, analyze_loop, safe_cost_to_build, cost_to_build,
        mat_loop, c1CatP, cfgMarket, emptyCache, get_blueprint_cost])⟩

/-- A catalog whose single candidate is built from no materials at
all (its blueprint, type 100, costs 7), so in self-sufficiency mode
its row has 0 total hours. -/
def c9Cat : Catalog where
  price := fun i => if i = 100 then 7 else 0
  volume := fun _ => 100
  typeName := fun _ => ""
  groupID := fun _ => none
  categoryID := fun _ => none
  oreFor := fun _ => none
  bpDomain := {1}
  blueprintId := fun i => if i = 1 then some 100 else none
  materials := fun _ => []
  outputQuantity := fun _ => 1

/-- The row analyze_profits emits for item 1 of c9Cat under cfgSelf:
zero hours everywhere and 0 isk per hour despite a -7 profit. -/
def c9Row : Row :=
  ⟨1, "", 0, 7, 7, 7, 0, -7, 100, some 0, some 0, some 0, some 0⟩

theorem zero_hours_isk_guard_witness :
    (analyze_profits c9Cat cfgSelf [1] =
      .ok ([c9Row], updateCache emptyCache 1 ⟨0, 0, 0, 7 / 10, 7⟩) ∧
      cfgSelf.ENABLE_SELF_SUFFICIENT = true ∧
      c9Row ∈ [c9Row] ∧ c9Row.total_hours = some 0) ∧
    c9Row.isk_per_hour = some 0 :=
  ⟨⟨by norm_num [analyze_profits, analyze_loop, safe_cost_to_build, cost_to_build,
      mat_loop, c9Cat, cfgSelf, c9Row, emptyCache, get_blueprint_cost],
    rfl, by simp, rfl⟩,
    zero_hours_isk_guard c9Cat cfgSelf [1] [c9Row]
      (updateCache emptyCache 1 ⟨0, 0, 0, 7 / 10, 7⟩)
      (by norm_num [analyze_profits, analyze_loop, safe_cost_to_build, cost_to_build,
        mat_loop, c9Cat, cfgSelf, c9Row, emptyCache, get_blueprint_cost])
      rfl c9Row (by simp) rfl⟩

/-- A self-sufficiency catalog where item 1 needs 7 units of the
mineral item 2 (group 18) and no ore row reprocesses into item 2. -/
def c10Cat : Catalog where
  price := fun _ => 0
  volume := fun _ => 100
  typeName := fun _ => ""
  groupID := fun i => if i = 2 then some 18 else none
  categoryID := fun _ => none
  oreFor := fun _ => none
  bpDomain := {1}
  blueprintId := fun _ => none
  materials := fun i => if i = 1 then [(2, 7)] else []
  outputQuantity := fun _ => 1

theorem mineral_without_ore_is_free_witness :
    (cfgSelf.ENABLE_SELF_SUFFICIENT = true ∧ is_mineral c10Cat 2 = true ∧
      c10Cat.oreFor 2 = none) ∧
    (calculate_mining_time c10Cat 2 7 = .ok 0 ∧
      mat_loop c10Cat cfgSelf ∅ emptyCache [(2, 7)] =
        mat_loop c10Cat cfgSelf ∅ emptyCache []) :=
  ⟨⟨rfl, by decide, rfl⟩,
    mineral_without_ore_is_free c10Cat cfgSelf ∅ emptyCache 2 7 [] rfl (by decide) rfl⟩
